import Mathlib

/-!
A shallow embedding of the runtime-observation and invariant-inference
engine of the `rdf` toolkit (modules `rdf.observe.decorator`,
`rdf.observe.analyzer`, `rdf.observe.models`, `rdf.observe.writer`),
together with theorems settling the specification claims about it.

Python values are modelled structurally (`PyValue`), machine floats as
rationals, dictionaries and registries as association lists, and the
profile store's object identity (needed to reason about shallow versus
deep copies) as an explicit heap of profiles addressed by index.
-/

namespace RDF

/-- Structural model of a Python runtime value, covering exactly the
shapes `_analyze_value` in `rdf/observe/decorator.py` distinguishes:
`None`, `bool`, `int`, `float`, `str`, the four sequence/set types,
`dict`, and any other object (carrying only its type name, the one
thing `_analyze_value` reads from it).  Python floats are modelled as
rationals. -/
inductive PyValue where
  | none
  | bool (b : Bool)
  | int (n : Int)
  | float (q : ℚ)
  | str (s : String)
  | list (xs : List PyValue)
  | tuple (xs : List PyValue)
  | set (xs : List PyValue)
  | frozenset (xs : List PyValue)
  | dict (entries : List (PyValue × PyValue))
  | obj (typeName : String)

/-- `type(value).__name__` for the modelled values. -/
def PyValue.typeName : PyValue → String
  | .none => "NoneType"
  | .bool _ => "bool"
  | .int _ => "int"
  | .float _ => "float"
  | .str _ => "str"
  | .list _ => "list"
  | .tuple _ => "tuple"
  | .set _ => "set"
  | .frozenset _ => "frozenset"
  | .dict _ => "dict"
  | .obj t => t

/-- `str(k)` as used on dictionary keys by `_analyze_value`
(`rdf/observe/decorator.py` line 190); only the cases that can occur as
keys of the modelled values need a rendering. -/
def PyValue.strOf : PyValue → String
  | .none => "None"
  | .bool b => if b then "True" else "False"
  | .int n => toString n
  | .float q => toString q
  | .str s => s
  | .list _ => "list"
  | .tuple _ => "tuple"
  | .set _ => "set"
  | .frozenset _ => "frozenset"
  | .dict _ => "dict"
  | .obj t => t

/-- `value is None` as a boolean, used by `_analyze_value`. -/
def PyValue.isNone : PyValue → Bool
  | .none => true
  | _ => false

/-- `ValueAnalysis` from `rdf/observe/models.py` (lines 50-64): immutable
structural summary of one value.  Python tuples of strings are lists
here; `numeric_value : float | None` is `Option ℚ`. -/
structure ValueAnalysis where
  type_name : String
  is_none : Bool
  numeric_value : Option ℚ := Option.none
  string_length : Option Nat := Option.none
  string_patterns : List String := []
  collection_length : Option Nat := Option.none
  collection_is_empty : Option Bool := Option.none
  dict_keys : List String := []
  deriving DecidableEq

/-- `_extract_patterns` from `rdf/observe/decorator.py` (lines 204-218):
pattern hints for a string value. -/
def extractPatterns (s : String) : List String :=
  let extPatterns :=
    [".csv", ".json", ".yaml", ".yml", ".py", ".txt", ".md"].filterMap
      (fun ext => if s.endsWith ext then some ("ends_with_" ++ ext.drop 1) else Option.none)
  let emailPatterns :=
    if s.contains '@' && s.contains '.' then ["looks_like_email"] else []
  let pathPatterns :=
    if s.startsWith "/" || s.startsWith "./" then ["looks_like_path"] else []
  let urlPatterns :=
    if s.startsWith "http://" || s.startsWith "https://" then ["looks_like_url"] else []
  extPatterns ++ emailPatterns ++ pathPatterns ++ urlPatterns

/-- `_analyze_value` from `rdf/observe/decorator.py` (lines 165-201):
projects a runtime value to a `ValueAnalysis`.  The `isinstance` chain is
mirrored branch for branch; `bool` is tested before `int`/`float`, so a
boolean never populates `numeric_value`. -/
def analyzeValue (value : PyValue) : ValueAnalysis :=
  let type_name := value.typeName
  let is_none := value.isNone
  match value with
  | .bool _ =>
      { type_name := type_name, is_none := is_none }
  | .int n =>
      { type_name := type_name, is_none := is_none, numeric_value := some (n : ℚ) }
  | .float q =>
      { type_name := type_name, is_none := is_none, numeric_value := some q }
  | .str s =>
      { type_name := type_name, is_none := is_none,
        string_length := some s.length, string_patterns := extractPatterns s }
  | .list xs | .tuple xs | .set xs | .frozenset xs =>
      { type_name := type_name, is_none := is_none,
        collection_length := some xs.length,
        collection_is_empty := some (decide (xs.length = 0)) }
  | .dict entries =>
      { type_name := type_name, is_none := is_none,
        collection_length := some entries.length,
        collection_is_empty := some (decide (entries.length = 0)),
        dict_keys := (entries.map Prod.fst).take 20 |>.map PyValue.strOf }
  | _ =>
      { type_name := type_name, is_none := is_none }

/-- An aware UTC `datetime.datetime` as produced by
`datetime.now(timezone.utc)` in `rdf/observe/decorator.py` (line 151);
the timezone is always UTC, so only the calendar fields are carried. -/
structure Datetime where
  year : Nat
  month : Nat
  day : Nat
  hour : Nat
  minute : Nat
  second : Nat
  microsecond : Nat
  deriving DecidableEq

/-- Field bounds guaranteed by Python's `datetime` constructor
(`MINYEAR = 1 <= year <= MAXYEAR = 9999`, and so on). -/
def Datetime.valid (d : Datetime) : Prop :=
  1 ≤ d.year ∧ d.year ≤ 9999 ∧ 1 ≤ d.month ∧ d.month ≤ 12 ∧
  1 ≤ d.day ∧ d.day ≤ 31 ∧ d.hour ≤ 23 ∧ d.minute ≤ 59 ∧
  d.second ≤ 59 ∧ d.microsecond ≤ 999999

instance (d : Datetime) : Decidable d.valid := by
  unfold Datetime.valid; infer_instance

/-- `IOPattern` from `rdf/observe/models.py` (lines 39-47). -/
inductive IOPattern where
  | filesystem_read
  | filesystem_write
  | network_call
  | database_read
  | database_write
  | pure
  deriving DecidableEq, Fintype

/-- The `.value` string tag of an `IOPattern` member. -/
def IOPattern.value : IOPattern → String
  | .filesystem_read => "filesystem_read"
  | .filesystem_write => "filesystem_write"
  | .network_call => "network_call"
  | .database_read => "database_read"
  | .database_write => "database_write"
  | .pure => "pure"

/-- Iterating a Python set yields its members in an unspecified but
fixed order; the model fixes the order by sorting, which needs a linear
order on the enum (lifted along the injective `.value` tags). -/
instance : LinearOrder IOPattern := LinearOrder.lift' IOPattern.value (by decide)

/-- `IOPattern(p)`: enum lookup by value; fails (raises in Python) on an
unknown tag. -/
def IOPattern.ofValue (s : String) : Option IOPattern :=
  if s = "filesystem_read" then some .filesystem_read
  else if s = "filesystem_write" then some .filesystem_write
  else if s = "network_call" then some .network_call
  else if s = "database_read" then some .database_read
  else if s = "database_write" then some .database_write
  else if s = "pure" then some .pure
  else Option.none

/-- `CallObservation` from `rdf/observe/models.py` (lines 94-109): one
immutable invocation record.  Python's tuple of `(name, ValueAnalysis)`
pairs is a list of pairs. -/
structure CallObservation where
  function_name : String
  module_name : String
  qualname : String
  file_path : String
  line_number : Int
  timestamp : Datetime
  arguments : List (String × ValueAnalysis)
  return_value : ValueAnalysis
  raised_exception : Option String := Option.none
  caller : Option String := Option.none
  call_depth : Nat := 0
  deriving DecidableEq

/-- `FunctionProfile` from `rdf/observe/models.py` (lines 152-172):
mutable aggregate per function.  Python sets are `Finset String` /
`Finset IOPattern`; the defaults mirror the dataclass field defaults
(`min_call_depth = 999` is the sentinel). -/
structure FunctionProfile where
  qualname : String
  module_name : String
  file_path : String
  line_number : Int
  callers : Finset String := ∅
  callees : Finset String := ∅
  call_count : Nat := 0
  max_call_depth : Nat := 0
  min_call_depth : Nat := 999
  io_patterns : Finset IOPattern := ∅
  observations : List CallObservation := []
  deriving DecidableEq

/-- `InferredInvariant` from `rdf/observe/models.py` (lines 231-240);
`confidence : float` is a rational. -/
structure InferredInvariant where
  parameter : String
  invariant_type : String
  description : String
  confidence : ℚ
  observations_count : Nat
  supporting_count : Nat
  deriving DecidableEq

/-- `InferenceEngine.MIN_OBSERVATIONS` (`rdf/observe/analyzer.py` line 43). -/
def MIN_OBSERVATIONS : Nat := 5

/-- The `param_desc` prelude of `_infer_param_invariants`
(`rdf/observe/analyzer.py` line 194). -/
def paramDesc (param : String) : String :=
  if param = "__return__" then "Return value" else "`" ++ param ++ "`"

/-- Nullability block of `_infer_param_invariants`
(`rdf/observe/analyzer.py` lines 197-208). -/
def nullabilityInvs (param : String) (analyses : List ValueAnalysis) :
    List InferredInvariant :=
  if analyses.countP (fun a => a.is_none) = 0 then
    [{ parameter := param, invariant_type := "nullability",
       description := paramDesc param ++ " is never None",
       confidence := 1,
       observations_count := analyses.length,
       supporting_count := analyses.length }]
  else []

/-- Type-consistency block of `_infer_param_invariants`
(`rdf/observe/analyzer.py` lines 211-224): `unique_types = set(types)`
has exactly one member iff `types.dedup` is a singleton, and
`unique_types.pop()` then yields that member. -/
def typeInvs (param : String) (analyses : List ValueAnalysis) :
    List InferredInvariant :=
  let types := (analyses.filter (fun a => !a.is_none)).map (·.type_name)
  if types.dedup.length = 1 ∧ types ≠ [] then
    [{ parameter := param, invariant_type := "type",
       description := paramDesc param ++ " is always " ++ types.dedup.headD "",
       confidence := 1,
       observations_count := analyses.length,
       supporting_count := types.length }]
  else []

/-- Numeric-range block of `_infer_param_invariants`
(`rdf/observe/analyzer.py` lines 227-253): strictly-positive minimum
emits `> 0`, else non-negative minimum emits `>= 0` (mutually
exclusive `if`/`elif`). -/
def rangeInvs (param : String) (analyses : List ValueAnalysis) :
    List InferredInvariant :=
  let values := analyses.filterMap (·.numeric_value)
  if MIN_OBSERVATIONS ≤ values.length then
    match values.min? with
    | some min_val =>
        if 0 < min_val then
          [{ parameter := param, invariant_type := "range",
             description := paramDesc param ++ " is always > 0",
             confidence := 1,
             observations_count := values.length,
             supporting_count := values.length }]
        else if 0 ≤ min_val then
          [{ parameter := param, invariant_type := "range",
             description := paramDesc param ++ " is always >= 0",
             confidence := 1,
             observations_count := values.length,
             supporting_count := values.length }]
        else []
    | Option.none => []
  else []

/-- Collection-non-emptiness block of `_infer_param_invariants`
(`rdf/observe/analyzer.py` lines 256-267). -/
def collectionInvs (param : String) (analyses : List ValueAnalysis) :
    List InferredInvariant :=
  let empties := analyses.filterMap (·.collection_is_empty)
  if empties ≠ [] ∧ (∀ e ∈ empties, e = false) ∧ MIN_OBSERVATIONS ≤ empties.length then
    [{ parameter := param, invariant_type := "collection",
       description := paramDesc param ++ " is never empty",
       confidence := 1,
       observations_count := empties.length,
       supporting_count := empties.length }]
  else []

/-- `InferenceEngine._infer_param_invariants` (`rdf/observe/analyzer.py`
lines 189-269): the four blocks, appended in source order. -/
def inferParamInvariants (param : String) (analyses : List ValueAnalysis) :
    List InferredInvariant :=
  nullabilityInvs param analyses ++ typeInvs param analyses ++
    rangeInvs param analyses ++ collectionInvs param analyses

/-- The per-parameter collection loop of `_infer_invariants`
(`rdf/observe/analyzer.py` lines 170-175): for each observation, the
first argument pair whose name equals `param` (the inner `break`)
contributes its analysis. -/
def collectAnalyses (observations : List CallObservation) (param : String) :
    List ValueAnalysis :=
  observations.filterMap
    (fun obs => (obs.arguments.find? (fun pv => pv.1 = param)).map Prod.snd)

/-- `InferenceEngine._infer_invariants` (`rdf/observe/analyzer.py` lines
155-187): gate on the function-level observation count, then infer per
parameter name of the *first* observation, then for the return value of
the non-raising observations when at least `MIN_OBSERVATIONS` remain. -/
def inferInvariants (profile : FunctionProfile) : List InferredInvariant :=
  if profile.observations.length < MIN_OBSERVATIONS then []
  else
    match profile.observations with
    | [] => []
    | first_obs :: _ =>
        let paramInvs :=
          (first_obs.arguments.map Prod.fst).flatMap (fun param =>
            let analyses := collectAnalyses profile.observations param
            if analyses ≠ [] then inferParamInvariants param analyses else [])
        let return_analyses :=
          (profile.observations.filter
            (fun o => o.raised_exception = Option.none)).map (·.return_value)
        let returnInvs :=
          if MIN_OBSERVATIONS ≤ return_analyses.length then
            inferParamInvariants "__return__" return_analyses
          else []
        paramInvs ++ returnInvs

end RDF

namespace RDF

/-- C9: for every value, `collection_is_empty` is populated exactly when
`collection_length` is, and then equals `collection_length == 0`.  Both
facts are captured by one equation between the two optional fields. -/
theorem analyzeValue_collection_consistent (v : PyValue) :
    (analyzeValue v).collection_is_empty
      = (analyzeValue v).collection_length.map (fun n => decide (n = 0)) := by
  cases v <;> rfl

/-! Shape lemmas about the four invariant blocks. -/

theorem shape_of_mem_nullabilityInvs {param : String} {analyses : List ValueAnalysis}
    {i : InferredInvariant} (h : i ∈ nullabilityInvs param analyses) :
    i.parameter = param ∧ i.invariant_type = "nullability" := by
  unfold nullabilityInvs at h
  split at h
  · simp only [List.mem_singleton] at h
    subst h; exact ⟨rfl, rfl⟩
  · simp at h

theorem shape_of_mem_typeInvs {param : String} {analyses : List ValueAnalysis}
    {i : InferredInvariant} (h : i ∈ typeInvs param analyses) :
    i.parameter = param ∧ i.invariant_type = "type" := by
  unfold typeInvs at h
  dsimp only at h
  split at h
  · simp only [List.mem_singleton] at h
    subst h; exact ⟨rfl, rfl⟩
  · simp at h

theorem shape_of_mem_rangeInvs {param : String} {analyses : List ValueAnalysis}
    {i : InferredInvariant} (h : i ∈ rangeInvs param analyses) :
    i.parameter = param ∧ i.invariant_type = "range" := by
  unfold rangeInvs at h
  dsimp only at h
  split at h
  · split at h
    · split at h
      · simp only [List.mem_singleton] at h
        subst h; exact ⟨rfl, rfl⟩
      · split at h
        · simp only [List.mem_singleton] at h
          subst h; exact ⟨rfl, rfl⟩
        · simp at h
    · simp at h
  · simp at h

theorem shape_of_mem_collectionInvs {param : String} {analyses : List ValueAnalysis}
    {i : InferredInvariant} (h : i ∈ collectionInvs param analyses) :
    i.parameter = param ∧ i.invariant_type = "collection" := by
  unfold collectionInvs at h
  dsimp only at h
  split at h
  · simp only [List.mem_singleton] at h
    subst h; exact ⟨rfl, rfl⟩
  · simp at h

theorem parameter_of_mem_inferParamInvariants {param : String}
    {analyses : List ValueAnalysis} {i : InferredInvariant}
    (h : i ∈ inferParamInvariants param analyses) : i.parameter = param := by
  unfold inferParamInvariants at h
  simp only [List.mem_append] at h
  rcases h with ((h | h) | h) | h
  · exact (shape_of_mem_nullabilityInvs h).1
  · exact (shape_of_mem_typeInvs h).1
  · exact (shape_of_mem_rangeInvs h).1
  · exact (shape_of_mem_collectionInvs h).1

theorem rangeInvs_length_le_one (param : String) (analyses : List ValueAnalysis) :
    (rangeInvs param analyses).length ≤ 1 := by
  unfold rangeInvs
  dsimp only
  split
  · split
    · split
      · simp
      · split <;> simp
    · simp
  · simp

theorem eq_of_mem_of_length_le_one {α : Type} {l : List α} (h : l.length ≤ 1)
    {a b : α} (ha : a ∈ l) (hb : b ∈ l) : a = b := by
  match l with
  | [] => cases ha
  | [x] =>
      simp only [List.mem_singleton] at ha hb
      rw [ha, hb]
  | x :: y :: t => simp at h

theorem string_append_left_length {a b c : String} (h : a ++ b = a ++ c) :
    b.length = c.length := by
  have h2 := congrArg String.length h
  simpa [String.length_append] using h2

theorem desc_of_mem_rangeInvs {param : String} {analyses : List ValueAnalysis}
    {i : InferredInvariant} (h : i ∈ rangeInvs param analyses) :
    i.description = paramDesc param ++ " is always > 0" ∨
      i.description = paramDesc param ++ " is always >= 0" := by
  unfold rangeInvs at h
  dsimp only at h
  split at h
  · split at h
    · split at h
      · simp only [List.mem_singleton] at h
        subst h; left; rfl
      · split at h
        · simp only [List.mem_singleton] at h
          subst h; right; rfl
        · simp at h
    · simp at h
  · simp at h

theorem range_exclusive_of_mem (param : String)
    (analyses : List ValueAnalysis) :
    ¬ ((∃ i ∈ inferParamInvariants param analyses,
          i.invariant_type = "range" ∧
          i.description = paramDesc param ++ " is always > 0") ∧
       (∃ j ∈ inferParamInvariants param analyses,
          j.invariant_type = "range" ∧
          j.description = paramDesc param ++ " is always >= 0")) := by
  rintro ⟨⟨i, hi, hti, hdi⟩, ⟨j, hj, htj, hdj⟩⟩
  have hir : i ∈ rangeInvs param analyses := by
    unfold inferParamInvariants at hi
    simp only [List.mem_append] at hi
    rcases hi with ((h | h) | h) | h
    · rw [(shape_of_mem_nullabilityInvs h).2] at hti; exact absurd hti (by decide)
    · rw [(shape_of_mem_typeInvs h).2] at hti; exact absurd hti (by decide)
    · exact h
    · rw [(shape_of_mem_collectionInvs h).2] at hti; exact absurd hti (by decide)
  have hjr : j ∈ rangeInvs param analyses := by
    unfold inferParamInvariants at hj
    simp only [List.mem_append] at hj
    rcases hj with ((h | h) | h) | h
    · rw [(shape_of_mem_nullabilityInvs h).2] at htj; exact absurd htj (by decide)
    · rw [(shape_of_mem_typeInvs h).2] at htj; exact absurd htj (by decide)
    · exact h
    · rw [(shape_of_mem_collectionInvs h).2] at htj; exact absurd htj (by decide)
  have hij : i = j :=
    eq_of_mem_of_length_le_one (rangeInvs_length_le_one param analyses) hir hjr
  rw [hij, hdj] at hdi
  have := string_append_left_length hdi.symm
  exact absurd this (by decide)

end RDF

namespace RDF

/-! Helper lemmas for the emission direction of the inference rules. -/

theorem length_filterMap_of_isSome {α β : Type} (f : α → Option β) :
    ∀ {l : List α}, (∀ a ∈ l, (f a).isSome) → (l.filterMap f).length = l.length := by
  intro l
  induction l with
  | nil => intro _; rfl
  | cons x xs ih =>
      intro h
      have hx := h x (List.mem_cons_self x xs)
      obtain ⟨b, hb⟩ := Option.isSome_iff_exists.mp hx
      rw [List.filterMap_cons, hb]
      simp only [List.length_cons]
      rw [ih (fun a ha => h a (List.mem_cons_of_mem x ha))]

theorem dedup_eq_singleton_of_all {α : Type} [DecidableEq α] {t : α} :
    ∀ {l : List α}, l ≠ [] → (∀ x ∈ l, x = t) → l.dedup = [t] := by
  intro l
  induction l with
  | nil => intro h; exact absurd rfl h
  | cons x xs ih =>
      intro _ hall
      have hx : x = t := hall x (List.mem_cons_self x xs)
      cases xs with
      | nil => rw [hx]; rfl
      | cons y ys =>
          have hy : y = t := hall y (by simp)
          have hmem : x ∈ y :: ys := by rw [hx, hy]; exact List.mem_cons_self t ys
          rw [List.dedup_cons_of_mem hmem]
          exact ih (by simp) (fun a ha => hall a (List.mem_cons_of_mem x ha))

theorem exists_mem_nullabilityInvs {param : String} {analyses : List ValueAnalysis}
    (h : ∀ a ∈ analyses, a.is_none = false) :
    ∃ i ∈ nullabilityInvs param analyses,
      i.invariant_type = "nullability" ∧ i.confidence = 1 := by
  unfold nullabilityInvs
  rw [if_pos (List.countP_eq_zero.mpr (fun a ha => by simp [h a ha]))]
  exact ⟨_, List.mem_singleton_self _, rfl, rfl⟩

theorem exists_mem_typeInvs {param : String} {analyses : List ValueAnalysis} {t : String}
    (hne : analyses ≠ [])
    (h : ∀ a ∈ analyses, a.is_none = false ∧ a.type_name = t) :
    ∃ i ∈ typeInvs param analyses, i.invariant_type = "type" ∧ i.confidence = 1 := by
  unfold typeInvs
  have hfilter : analyses.filter (fun a => !a.is_none) = analyses :=
    List.filter_eq_self.mpr (fun a ha => by simp [(h a ha).1])
  have htypes : ∀ x ∈ (analyses.filter (fun a => !a.is_none)).map (·.type_name), x = t := by
    intro x hx
    rw [hfilter] at hx
    obtain ⟨a, ha, hax⟩ := List.mem_map.mp hx
    rw [← hax]; exact (h a ha).2
  have htne : (analyses.filter (fun a => !a.is_none)).map (·.type_name) ≠ [] := by
    rw [hfilter]
    simpa using hne
  rw [if_pos ⟨by rw [dedup_eq_singleton_of_all htne htypes]; rfl, htne⟩]
  exact ⟨_, List.mem_singleton_self _, rfl, rfl⟩

theorem values_facts {analyses : List ValueAnalysis} {P : ℚ → Prop}
    (h : ∀ a ∈ analyses, ∃ q, a.numeric_value = some q ∧ P q) :
    (analyses.filterMap (·.numeric_value)).length = analyses.length ∧
    ∀ x ∈ analyses.filterMap (·.numeric_value), P x := by
  constructor
  · exact length_filterMap_of_isSome _ (fun a ha => by
      obtain ⟨q, hq, _⟩ := h a ha
      rw [hq]; rfl)
  · intro x hx
    obtain ⟨a, ha, hax⟩ := List.mem_filterMap.mp hx
    obtain ⟨q, hq, hPq⟩ := h a ha
    rw [hq] at hax
    cases hax
    exact hPq

theorem exists_mem_rangeInvs_pos {param : String} {analyses : List ValueAnalysis}
    (hlen : MIN_OBSERVATIONS ≤ analyses.length)
    (h : ∀ a ∈ analyses, ∃ q, a.numeric_value = some q ∧ 0 < q) :
    ∃ i ∈ rangeInvs param analyses, i.invariant_type = "range" ∧
      i.description = paramDesc param ++ " is always > 0" ∧ i.confidence = 1 := by
  unfold rangeInvs
  dsimp only
  obtain ⟨hvl, hvp⟩ := values_facts h
  rw [if_pos (by rw [hvl]; exact hlen)]
  have hvne : analyses.filterMap (·.numeric_value) ≠ [] := by
    intro hnil
    rw [hnil] at hvl
    simp only [List.length_nil] at hvl
    rw [← hvl] at hlen
    exact absurd hlen (by decide)
  obtain ⟨m, hm⟩ : ∃ m, (analyses.filterMap (·.numeric_value)).min? = some m := by
    cases hv : analyses.filterMap (·.numeric_value) with
    | nil => exact absurd hv hvne
    | cons x xs => exact ⟨_, List.min?_cons⟩
  rw [hm]
  dsimp only
  have hmmem : m ∈ analyses.filterMap (·.numeric_value) :=
    List.min?_mem (fun a b => min_choice a b) hm
  rw [if_pos (hvp m hmmem)]
  exact ⟨_, List.mem_singleton_self _, rfl, rfl, rfl⟩

theorem exists_mem_rangeInvs_nonneg {param : String} {analyses : List ValueAnalysis}
    (hlen : MIN_OBSERVATIONS ≤ analyses.length)
    (h : ∀ a ∈ analyses, ∃ q, a.numeric_value = some q ∧ 0 ≤ q) :
    ∃ i ∈ rangeInvs param analyses, i.invariant_type = "range" ∧ i.confidence = 1 := by
  unfold rangeInvs
  dsimp only
  obtain ⟨hvl, hvp⟩ := values_facts h
  rw [if_pos (by rw [hvl]; exact hlen)]
  have hvne : analyses.filterMap (·.numeric_value) ≠ [] := by
    intro hnil
    rw [hnil] at hvl
    simp only [List.length_nil] at hvl
    rw [← hvl] at hlen
    exact absurd hlen (by decide)
  obtain ⟨m, hm⟩ : ∃ m, (analyses.filterMap (·.numeric_value)).min? = some m := by
    cases hv : analyses.filterMap (·.numeric_value) with
    | nil => exact absurd hv hvne
    | cons x xs => exact ⟨_, List.min?_cons⟩
  rw [hm]
  dsimp only
  have hmmem : m ∈ analyses.filterMap (·.numeric_value) :=
    List.min?_mem (fun a b => min_choice a b) hm
  by_cases hpos : 0 < m
  · rw [if_pos hpos]
    exact ⟨_, List.mem_singleton_self _, rfl, rfl⟩
  · rw [if_neg hpos, if_pos (hvp m hmmem)]
    exact ⟨_, List.mem_singleton_self _, rfl, rfl⟩

theorem exists_mem_collectionInvs {param : String} {analyses : List ValueAnalysis}
    (hlen : MIN_OBSERVATIONS ≤ analyses.length)
    (h : ∀ a ∈ analyses, a.collection_is_empty = some false) :
    ∃ i ∈ collectionInvs param analyses,
      i.invariant_type = "collection" ∧ i.confidence = 1 := by
  unfold collectionInvs
  dsimp only
  have hel : (analyses.filterMap (·.collection_is_empty)).length = analyses.length :=
    length_filterMap_of_isSome _ (fun a ha => by rw [h a ha]; rfl)
  have hall : ∀ e ∈ analyses.filterMap (·.collection_is_empty), e = false := by
    intro e he
    obtain ⟨a, ha, hae⟩ := List.mem_filterMap.mp he
    rw [h a ha] at hae
    cases hae
    rfl
  have hne : analyses.filterMap (·.collection_is_empty) ≠ [] := by
    intro hnil
    rw [hnil] at hel
    simp only [List.length_nil] at hel
    rw [← hel] at hlen
    exact absurd hlen (by decide)
  rw [if_pos ⟨hne, hall, by rw [hel]; exact hlen⟩]
  exact ⟨_, List.mem_singleton_self _, rfl, rfl⟩

theorem mem_inferInvariants_of_mem_param {p : FunctionProfile}
    {first : CallObservation} {rest : List CallObservation}
    (hobs : p.observations = first :: rest)
    (hlen : MIN_OBSERVATIONS ≤ p.observations.length)
    {param : String} (hparam : param ∈ first.arguments.map Prod.fst)
    {i : InferredInvariant}
    (hi : i ∈ inferParamInvariants param (collectAnalyses p.observations param))
    (hne : collectAnalyses p.observations param ≠ []) :
    i ∈ inferInvariants p := by
  unfold inferInvariants
  rw [if_neg (Nat.not_lt.mpr hlen)]
  rw [hobs] at hi hne ⊢
  dsimp only
  apply List.mem_append_left
  apply List.mem_flatMap.mpr
  refine ⟨param, hparam, ?_⟩
  rw [if_pos hne]
  exact hi

end RDF

namespace RDF

/-- A concrete analyzed value (`analyzeValue 1`): an `int`, not `None`,
numeric value `1`. -/
def va1 : ValueAnalysis := analyzeValue (PyValue.int 1)

/-- A fixed concrete UTC timestamp. -/
def d0 : Datetime := ⟨2025, 1, 1, 0, 0, 0, 0⟩

/-- A concrete observation of `m.f` whose single argument is bound under
the given name (the fallback name `arg0` arises when signature binding
fails, `rdf/observe/decorator.py` line 127). -/
def obsNamed (name : String) : CallObservation :=
  { function_name := "f", module_name := "m", qualname := "m.f",
    file_path := "ex.py", line_number := 10, timestamp := d0,
    arguments := [(name, va1)], return_value := va1 }

/-- A profile with five observations of `m.f`; only the first binds the
argument under the name `x`, the remaining four under the positional
fallback name `arg0`. -/
def P5 : FunctionProfile :=
  { qualname := "m.f", module_name := "m", file_path := "ex.py",
    line_number := 10,
    observations := [obsNamed "x", obsNamed "arg0", obsNamed "arg0",
                     obsNamed "arg0", obsNamed "arg0"] }

/-- A profile with five observations of `m.g`, all binding `x`. -/
def Q5 : FunctionProfile :=
  { qualname := "m.g", module_name := "m", file_path := "ex.py",
    line_number := 20,
    observations := [obsNamed "x", obsNamed "x", obsNamed "x",
                     obsNamed "x", obsNamed "x"] }

/-- C5 counterexample: in `P5` the parameter `x` has exactly one
observation (fewer than 5), yet invariant inference emits an invariant
for `x` — the per-parameter reading of the observation threshold is
false for the nullability and type rules. -/
theorem inferInvariants_per_param_threshold_fails :
    (collectAnalyses P5.observations "x").length < 5 ∧
    ∃ i ∈ inferInvariants P5, i.parameter = "x" := by
  constructor
  · decide
  · decide

/-- C5 (amended): the observation threshold gates at the function level,
not per parameter: with fewer than 5 observations of the function no
invariant of any kind is emitted; and for a parameter that occurs in the
first observation and has at least 5 collected observations, each rule
whose condition all of them satisfy emits its invariant at confidence
1.0 (`> 0` when every numeric value is strictly positive, some range
invariant when every numeric value is non-negative). -/
theorem inferInvariants_threshold (p : FunctionProfile) :
    (p.observations.length < MIN_OBSERVATIONS → inferInvariants p = []) ∧
    (∀ (first : CallObservation) (rest : List CallObservation) (param : String),
      p.observations = first :: rest →
      MIN_OBSERVATIONS ≤ p.observations.length →
      param ∈ first.arguments.map Prod.fst →
      MIN_OBSERVATIONS ≤ (collectAnalyses p.observations param).length →
      ((∀ a ∈ collectAnalyses p.observations param, a.is_none = false) →
        ∃ i ∈ inferInvariants p, i.parameter = param ∧
          i.invariant_type = "nullability" ∧ i.confidence = 1) ∧
      (∀ t : String,
        (∀ a ∈ collectAnalyses p.observations param,
            a.is_none = false ∧ a.type_name = t) →
        ∃ i ∈ inferInvariants p, i.parameter = param ∧
          i.invariant_type = "type" ∧ i.confidence = 1) ∧
      ((∀ a ∈ collectAnalyses p.observations param,
          ∃ q, a.numeric_value = some q ∧ 0 < q) →
        ∃ i ∈ inferInvariants p, i.parameter = param ∧
          i.invariant_type = "range" ∧
          i.description = paramDesc param ++ " is always > 0" ∧
          i.confidence = 1) ∧
      ((∀ a ∈ collectAnalyses p.observations param,
          ∃ q, a.numeric_value = some q ∧ 0 ≤ q) →
        ∃ i ∈ inferInvariants p, i.parameter = param ∧
          i.invariant_type = "range" ∧ i.confidence = 1) ∧
      ((∀ a ∈ collectAnalyses p.observations param,
          a.collection_is_empty = some false) →
        ∃ i ∈ inferInvariants p, i.parameter = param ∧
          i.invariant_type = "collection" ∧ i.confidence = 1)) := by
  constructor
  · intro h
    unfold inferInvariants
    rw [if_pos h]
  · intro first rest param hobs hlen hparam hcard
    have hne : collectAnalyses p.observations param ≠ [] := by
      intro hnil
      rw [hnil] at hcard
      exact absurd hcard (by decide)
    refine ⟨?_, ?_, ?_, ?_, ?_⟩
    · intro h
      obtain ⟨i, hi, ht, hc⟩ := @exists_mem_nullabilityInvs param _ h
      have him : i ∈ inferParamInvariants param (collectAnalyses p.observations param) := by
        unfold inferParamInvariants
        exact List.mem_append_left _ (List.mem_append_left _ (List.mem_append_left _ hi))
      exact ⟨i, mem_inferInvariants_of_mem_param hobs hlen hparam him hne,
        parameter_of_mem_inferParamInvariants him, ht, hc⟩
    · intro t h
      obtain ⟨i, hi, ht, hc⟩ := @exists_mem_typeInvs param _ _ hne h
      have him : i ∈ inferParamInvariants param (collectAnalyses p.observations param) := by
        unfold inferParamInvariants
        exact List.mem_append_left _ (List.mem_append_left _ (List.mem_append_right _ hi))
      exact ⟨i, mem_inferInvariants_of_mem_param hobs hlen hparam him hne,
        parameter_of_mem_inferParamInvariants him, ht, hc⟩
    · intro h
      obtain ⟨i, hi, ht, hd, hc⟩ := @exists_mem_rangeInvs_pos param _ hcard h
      have him : i ∈ inferParamInvariants param (collectAnalyses p.observations param) := by
        unfold inferParamInvariants
        exact List.mem_append_left _ (List.mem_append_right _ hi)
      exact ⟨i, mem_inferInvariants_of_mem_param hobs hlen hparam him hne,
        parameter_of_mem_inferParamInvariants him, ht, hd, hc⟩
    · intro h
      obtain ⟨i, hi, ht, hc⟩ := @exists_mem_rangeInvs_nonneg param _ hcard h
      have him : i ∈ inferParamInvariants param (collectAnalyses p.observations param) := by
        unfold inferParamInvariants
        exact List.mem_append_left _ (List.mem_append_right _ hi)
      exact ⟨i, mem_inferInvariants_of_mem_param hobs hlen hparam him hne,
        parameter_of_mem_inferParamInvariants him, ht, hc⟩
    · intro h
      obtain ⟨i, hi, ht, hc⟩ := @exists_mem_collectionInvs param _ hcard h
      have him : i ∈ inferParamInvariants param (collectAnalyses p.observations param) := by
        unfold inferParamInvariants
        exact List.mem_append_right _ hi
      exact ⟨i, mem_inferInvariants_of_mem_param hobs hlen hparam him hne,
        parameter_of_mem_inferParamInvariants him, ht, hc⟩

/-- Witness for the amended C5 theorem on the concrete profile `Q5`. -/
theorem inferInvariants_threshold_witness :
    Q5.observations = obsNamed "x" :: [obsNamed "x", obsNamed "x", obsNamed "x", obsNamed "x"] ∧
    MIN_OBSERVATIONS ≤ Q5.observations.length ∧
    "x" ∈ (obsNamed "x").arguments.map Prod.fst ∧
    MIN_OBSERVATIONS ≤ (collectAnalyses Q5.observations "x").length ∧
    (∀ a ∈ collectAnalyses Q5.observations "x", a.is_none = false) ∧
    ∃ i ∈ inferInvariants Q5, i.parameter = "x" ∧
      i.invariant_type = "nullability" ∧ i.confidence = 1 :=
  ⟨rfl, by decide, by decide, by decide, by decide,
    ((inferInvariants_threshold Q5).2
        (obsNamed "x") [obsNamed "x", obsNamed "x", obsNamed "x", obsNamed "x"] "x"
        rfl (by decide) (by decide) (by decide)).1 (by decide)⟩

/-- C10: every invariant that inference emits targets either the
reserved return marker or a parameter name occurring in the profile's
first observation. -/
theorem inferInvariants_params_from_first_obs (p : FunctionProfile)
    (i : InferredInvariant) (h : i ∈ inferInvariants p) :
    i.parameter = "__return__" ∨
      ∃ first, p.observations.head? = some first ∧
        i.parameter ∈ first.arguments.map Prod.fst := by
  unfold inferInvariants at h
  split at h
  · simp at h
  · split at h
    · simp at h
    · next first rest heq =>
        dsimp only at h
        rw [List.mem_append] at h
        rcases h with h | h
        · right
          rw [List.mem_flatMap] at h
          obtain ⟨param, hp, hi⟩ := h
          refine ⟨first, by rw [heq]; rfl, ?_⟩
          split at hi
          · rw [parameter_of_mem_inferParamInvariants hi]
            exact hp
          · simp at hi
        · split at h
          · left
            exact parameter_of_mem_inferParamInvariants h
          · simp at h

/-- Witness for C10 on the concrete profile `Q5` and one of its emitted
invariants. -/
theorem inferInvariants_params_from_first_obs_witness :
    (∃ i ∈ inferInvariants Q5, i.parameter = "x") ∧
    (∀ i, i ∈ inferInvariants Q5 → i.parameter = "x" →
      i.parameter = "__return__" ∨
        ∃ first, Q5.observations.head? = some first ∧
          i.parameter ∈ first.arguments.map Prod.fst) :=
  ⟨by decide, fun i hi _ => inferInvariants_params_from_first_obs Q5 i hi⟩

end RDF

namespace RDF

/-- C8: for every parameter (or the reserved `__return__` marker) and
every list of observed value analyses, the inferred invariant list never
contains both a strict-positive (`> 0`) and a non-negative (`>= 0`)
range invariant. -/
theorem inferParamInvariants_range_exclusive (param : String)
    (analyses : List ValueAnalysis) :
    (((inferParamInvariants param analyses).any fun i =>
        i.invariant_type == "range" &&
        i.description == paramDesc param ++ " is always > 0") &&
     ((inferParamInvariants param analyses).any fun i =>
        i.invariant_type == "range" &&
        i.description == paramDesc param ++ " is always >= 0")) = false := by
  by_contra hcon
  rw [Bool.not_eq_false, Bool.and_eq_true, List.any_eq_true, List.any_eq_true] at hcon
  obtain ⟨⟨i, hi, hbi⟩, ⟨j, hj, hbj⟩⟩ := hcon
  rw [Bool.and_eq_true, beq_iff_eq, beq_iff_eq] at hbi hbj
  exact range_exclusive_of_mem param analyses
    ⟨⟨i, hi, hbi.1, hbi.2⟩, ⟨j, hj, hbj.1, hbj.2⟩⟩

end RDF

namespace RDF

/-- A Python exception object, reduced to what the wrapper reads from
it: `type(e).__name__`. -/
structure PyExc where
  kind : String
  deriving DecidableEq

/-- The incoming `*args, **kwargs` of one invocation. -/
structure CallArgs where
  args : List PyValue
  kwargs : List (String × PyValue)

/-- `inspect.signature(func)` reduced to its one capability the wrapper
uses: `sig.bind(*args, **kwargs)` followed by `apply_defaults()`, which
either yields the ordered name-to-value binding or raises `TypeError`
(`Option.none`). -/
structure Signature where
  bind : CallArgs → Option (List (String × PyValue))

/-- The function identity captured at decoration time
(`rdf/observe/decorator.py` lines 66-79). -/
structure FuncMeta where
  function_name : String
  module_name : String
  qualname : String
  file_path : String
  line_number : Int

/-- What the global tracker supplies to one invocation: `get_caller()`,
`get_depth()`, and the wall clock read for the observation timestamp. -/
structure TrackerCtx where
  caller : Option String
  depth : Nat
  now : Datetime

/-- The call-graph update of the wrapper (`rdf/observe/decorator.py`
lines 111-116): add the caller when truthy, bump the call count, widen
the depth extremes. -/
def recordCallGraph (ctx : TrackerCtx) (p : FunctionProfile) : FunctionProfile :=
  let withCaller :=
    match ctx.caller with
    | some c => if c ≠ "" then { p with callers := insert c p.callers } else p
    | Option.none => p
  { withCaller with
      call_count := withCaller.call_count + 1,
      max_call_depth := max withCaller.max_call_depth ctx.depth,
      min_call_depth := min withCaller.min_call_depth ctx.depth }

/-- Argument binding and analysis (`rdf/observe/decorator.py` lines
118-127): bind to parameter names with defaults applied; on a
`TypeError` fall back to positional placeholder names `arg0`, `arg1`,
... over the positional arguments only. -/
def bindAndAnalyze (sig : Signature) (args : CallArgs) :
    List (String × ValueAnalysis) :=
  match sig.bind args with
  | some bound => bound.map (fun nv => (nv.1, analyzeValue nv.2))
  | Option.none => args.args.enum.map (fun iv => ("arg" ++ toString iv.1, analyzeValue iv.2))

/-- The error-marker analysis used when the wrapped call raised
(`rdf/observe/decorator.py` line 141). -/
def exceptionAnalysis : ValueAnalysis :=
  { type_name := "<exception>", is_none := true }

/-- Observation construction (`rdf/observe/decorator.py` lines 145-157). -/
def mkObservation (meta : FuncMeta) (ctx : TrackerCtx)
    (analyzed_args : List (String × ValueAnalysis)) (return_analysis : ValueAnalysis)
    (exception_name : Option String) : CallObservation :=
  { function_name := meta.function_name, module_name := meta.module_name,
    qualname := meta.qualname, file_path := meta.file_path,
    line_number := meta.line_number, timestamp := ctx.now,
    arguments := analyzed_args, return_value := return_analysis,
    raised_exception := exception_name, caller := ctx.caller,
    call_depth := ctx.depth }

/-- One invocation of the wrapper produced by `observe`
(`rdf/observe/decorator.py` lines 92-161) on an already-present profile:
update the call graph, bind and analyze the arguments, delegate to the
wrapped function, and in the `finally` block append a `CallObservation`
(with the error marker and kind name if the call raised) before the
result or exception propagates unchanged. -/
def wrapperStep (sig : Signature) (f : CallArgs → Except PyExc PyValue)
    (meta : FuncMeta) (ctx : TrackerCtx) (args : CallArgs)
    (p : FunctionProfile) : Except PyExc PyValue × FunctionProfile :=
  let profile1 := recordCallGraph ctx p
  let analyzed_args := bindAndAnalyze sig args
  match f args with
  | .ok result =>
      let observation :=
        mkObservation meta ctx analyzed_args (analyzeValue result) Option.none
      (.ok result,
        { profile1 with observations := profile1.observations ++ [observation] })
  | .error e =>
      let observation :=
        mkObservation meta ctx analyzed_args exceptionAnalysis (some e.kind)
      (.error e,
        { profile1 with observations := profile1.observations ++ [observation] })

/-- The profile created lazily for a newly observed function
(`rdf/observe/decorator.py` lines 82-89): all aggregate fields at their
dataclass defaults. -/
def initProfile (meta : FuncMeta) : FunctionProfile :=
  { qualname := meta.qualname, module_name := meta.module_name,
    file_path := meta.file_path, line_number := meta.line_number }

/-- A completed sequence of calls through the wrapper, threading the
profile. -/
def runCalls (sig : Signature) (f : CallArgs → Except PyExc PyValue)
    (meta : FuncMeta) : List (TrackerCtx × CallArgs) → FunctionProfile → FunctionProfile
  | [], p => p
  | c :: rest, p => runCalls sig f meta rest (wrapperStep sig f meta c.1 c.2 p).2

/-- C3: the wrapper is transparent — for every wrapped function, tracker
context, profile state and argument tuple, the wrapped call's outcome
(returned value, or raised error with its kind) is exactly the original
call's outcome. -/
theorem wrapper_transparent (sig : Signature) (f : CallArgs → Except PyExc PyValue)
    (meta : FuncMeta) (ctx : TrackerCtx) (args : CallArgs) (p : FunctionProfile) :
    (wrapperStep sig f meta ctx args p).1 = f args := by
  unfold wrapperStep
  cases h : f args <;> simp

theorem wrapperStep_call_count (sig : Signature) (f : CallArgs → Except PyExc PyValue)
    (meta : FuncMeta) (ctx : TrackerCtx) (args : CallArgs) (p : FunctionProfile) :
    (wrapperStep sig f meta ctx args p).2.call_count = p.call_count + 1 ∧
    (wrapperStep sig f meta ctx args p).2.observations.length
      = p.observations.length + 1 := by
  have hcg : (recordCallGraph ctx p).call_count = p.call_count + 1 := by
    unfold recordCallGraph
    cases ctx.caller with
    | none => rfl
    | some c =>
        by_cases hc : c ≠ "" <;> simp [hc]
  have hcgobs : (recordCallGraph ctx p).observations = p.observations := by
    unfold recordCallGraph
    cases ctx.caller with
    | none => rfl
    | some c =>
        by_cases hc : c ≠ "" <;> simp [hc]
  unfold wrapperStep
  cases h : f args <;> simp [h, hcg, hcgobs]

/-- C6: after any completed sequence of calls through the wrapper,
starting from the freshly created profile, the profile's call count
equals the number of recorded observations. -/
theorem runCalls_count_consistency (sig : Signature)
    (f : CallArgs → Except PyExc PyValue) (meta : FuncMeta)
    (calls : List (TrackerCtx × CallArgs)) :
    (runCalls sig f meta calls (initProfile meta)).call_count
      = (runCalls sig f meta calls (initProfile meta)).observations.length := by
  have aux : ∀ (calls : List (TrackerCtx × CallArgs)) (p : FunctionProfile),
      p.call_count = p.observations.length →
      (runCalls sig f meta calls p).call_count
        = (runCalls sig f meta calls p).observations.length := by
    intro calls
    induction calls with
    | nil => intro p hp; exact hp
    | cons c rest ih =>
        intro p hp
        apply ih
        obtain ⟨h1, h2⟩ := wrapperStep_call_count sig f meta c.1 c.2 p
        rw [h1, h2, hp]
  exact aux calls (initProfile meta) rfl

end RDF

namespace RDF

/-! ### ISO-8601 codec for aware UTC datetimes

`CallObservation.to_dict` serializes its timestamp with
`datetime.isoformat()` and `from_dict` restores it with
`datetime.fromisoformat()` (`rdf/observe/models.py` lines 124 and 141).
Both are Python standard-library routines; they are modelled here for
exactly the shapes the code produces: an aware UTC datetime prints as
`YYYY-MM-DDTHH:MM:SS[.ffffff]+00:00` (the fraction omitted when the
microsecond field is zero), and parsing accepts those strings. -/

/-- The character of a single decimal digit. -/
def digitChar (n : Nat) : Char := Char.ofNat (48 + n)

/-- Decimal digit value of a character, if it is a digit. -/
def digitVal (c : Char) : Option Nat :=
  if 48 ≤ c.toNat ∧ c.toNat ≤ 57 then some (c.toNat - 48) else Option.none

/-- Two-digit zero-padded decimal rendering. -/
def pad2 (n : Nat) : List Char := [digitChar (n / 10 % 10), digitChar (n % 10)]

/-- Four-digit zero-padded decimal rendering. -/
def pad4 (n : Nat) : List Char :=
  [digitChar (n / 1000 % 10), digitChar (n / 100 % 10),
   digitChar (n / 10 % 10), digitChar (n % 10)]

/-- Six-digit zero-padded decimal rendering. -/
def pad6 (n : Nat) : List Char :=
  [digitChar (n / 100000 % 10), digitChar (n / 10000 % 10),
   digitChar (n / 1000 % 10), digitChar (n / 100 % 10),
   digitChar (n / 10 % 10), digitChar (n % 10)]

/-- The `+00:00` UTC offset suffix of an aware UTC datetime. -/
def tzChars : List Char := ['+', '0', '0', ':', '0', '0']

/-- The optional fractional-seconds part followed by the offset. -/
def fracAndTz (us : Nat) : List Char :=
  if us = 0 then tzChars else '.' :: (pad6 us ++ tzChars)

/-- The characters of `d.isoformat()` for an aware UTC datetime. -/
def isoChars (d : Datetime) : List Char :=
  pad4 d.year ++ '-' :: (pad2 d.month ++ '-' :: (pad2 d.day ++ 'T' ::
    (pad2 d.hour ++ ':' :: (pad2 d.minute ++ ':' ::
      (pad2 d.second ++ fracAndTz d.microsecond)))))

/-- `datetime.isoformat()` for an aware UTC datetime. -/
def Datetime.isoformat (d : Datetime) : String := String.mk (isoChars d)

/-- Read two decimal digits. -/
def read2 : List Char → Option (Nat × List Char)
  | c1 :: c2 :: rest =>
      match digitVal c1, digitVal c2 with
      | some a, some b => some (a * 10 + b, rest)
      | _, _ => Option.none
  | _ => Option.none

/-- Read four decimal digits. -/
def read4 : List Char → Option (Nat × List Char)
  | c1 :: c2 :: c3 :: c4 :: rest =>
      match digitVal c1, digitVal c2, digitVal c3, digitVal c4 with
      | some a, some b, some c, some e => some (a * 1000 + b * 100 + c * 10 + e, rest)
      | _, _, _, _ => Option.none
  | _ => Option.none

/-- Read six decimal digits. -/
def read6 : List Char → Option (Nat × List Char)
  | c1 :: c2 :: c3 :: c4 :: c5 :: c6 :: rest =>
      match digitVal c1, digitVal c2, digitVal c3,
            digitVal c4, digitVal c5, digitVal c6 with
      | some a, some b, some c, some e, some f, some g =>
          some (a * 100000 + b * 10000 + c * 1000 + e * 100 + f * 10 + g, rest)
      | _, _, _, _, _, _ => Option.none
  | _ => Option.none

/-- Consume one expected character. -/
def expectChar (c : Char) : List Char → Option (List Char)
  | x :: rest => if x = c then some rest else Option.none
  | [] => Option.none

/-- Consume the `+00:00` offset and require the end of the input. -/
def parseTzEnd : List Char → Option Unit
  | ['+', '0', '0', ':', '0', '0'] => some ()
  | _ => Option.none

/-- `datetime.fromisoformat` on the character list, for the shapes
`isoformat` emits. -/
def parseIsoChars (cs : List Char) : Option Datetime := do
  let (y, cs) ← read4 cs
  let cs ← expectChar '-' cs
  let (mo, cs) ← read2 cs
  let cs ← expectChar '-' cs
  let (dd, cs) ← read2 cs
  let cs ← expectChar 'T' cs
  let (h, cs) ← read2 cs
  let cs ← expectChar ':' cs
  let (mi, cs) ← read2 cs
  let cs ← expectChar ':' cs
  let (s, cs) ← read2 cs
  match cs with
  | c :: rest =>
      if c = '.' then
        match read6 rest with
        | some (us, cs2) =>
            match parseTzEnd cs2 with
            | some _ => some ⟨y, mo, dd, h, mi, s, us⟩
            | Option.none => Option.none
        | Option.none => Option.none
      else
        match parseTzEnd (c :: rest) with
        | some _ => some ⟨y, mo, dd, h, mi, s, 0⟩
        | Option.none => Option.none
  | [] => Option.none

/-- `datetime.fromisoformat`. -/
def Datetime.fromisoformat (s : String) : Option Datetime := parseIsoChars s.data

theorem digitVal_digitChar {n : Nat} (h : n < 10) :
    digitVal (digitChar n) = some n := by
  interval_cases n <;> rfl

theorem read2_pad2 {n : Nat} (h : n < 100) (rest : List Char) :
    read2 (pad2 n ++ rest) = some (n, rest) := by
  have h1 : n / 10 % 10 < 10 := Nat.mod_lt _ (by norm_num)
  have h2 : n % 10 < 10 := Nat.mod_lt _ (by norm_num)
  simp [pad2, read2, digitVal_digitChar h1, digitVal_digitChar h2]
  omega

theorem read4_pad4 {n : Nat} (h : n < 10000) (rest : List Char) :
    read4 (pad4 n ++ rest) = some (n, rest) := by
  have hd : ∀ k : Nat, n / k % 10 < 10 := fun k => Nat.mod_lt _ (by norm_num)
  have h2 : n % 10 < 10 := Nat.mod_lt _ (by norm_num)
  simp [pad4, read4, digitVal_digitChar (hd 1000), digitVal_digitChar (hd 100),
    digitVal_digitChar (hd 10), digitVal_digitChar h2]
  omega

theorem read6_pad6 {n : Nat} (h : n < 1000000) (rest : List Char) :
    read6 (pad6 n ++ rest) = some (n, rest) := by
  have hd : ∀ k : Nat, n / k % 10 < 10 := fun k => Nat.mod_lt _ (by norm_num)
  have h2 : n % 10 < 10 := Nat.mod_lt _ (by norm_num)
  simp [pad6, read6, digitVal_digitChar (hd 100000), digitVal_digitChar (hd 10000),
    digitVal_digitChar (hd 1000), digitVal_digitChar (hd 100),
    digitVal_digitChar (hd 10), digitVal_digitChar h2]
  omega

theorem expectChar_cons (c : Char) (rest : List Char) :
    expectChar c (c :: rest) = some rest := by
  simp [expectChar]

set_option maxHeartbeats 1000000 in
theorem parseIsoChars_isoChars {d : Datetime} (hv : d.valid) :
    parseIsoChars (isoChars d) = some d := by
  obtain ⟨y, mo, dd, h, mi, s, us⟩ := d
  obtain ⟨hy1, hy2, hmo1, hmo2, hd1, hd2, hh, hmi, hs, hus⟩ := hv
  simp only at hy1 hy2 hmo1 hmo2 hd1 hd2 hh hmi hs hus
  unfold isoChars parseIsoChars
  dsimp only
  rw [read4_pad4 (show y < 10000 by omega)]
  simp only [Option.bind_eq_bind, Option.some_bind]
  rw [expectChar_cons]
  simp only [Option.some_bind]
  rw [read2_pad2 (show mo < 100 by omega)]
  simp only [Option.some_bind]
  rw [expectChar_cons]
  simp only [Option.some_bind]
  rw [read2_pad2 (show dd < 100 by omega)]
  simp only [Option.some_bind]
  rw [expectChar_cons]
  simp only [Option.some_bind]
  rw [read2_pad2 (show h < 100 by omega)]
  simp only [Option.some_bind]
  rw [expectChar_cons]
  simp only [Option.some_bind]
  rw [read2_pad2 (show mi < 100 by omega)]
  simp only [Option.some_bind]
  rw [expectChar_cons]
  simp only [Option.some_bind]
  rw [read2_pad2 (show s < 100 by omega)]
  simp only [Option.some_bind]
  by_cases h0 : us = 0
  · subst h0
    simp [fracAndTz, tzChars, parseTzEnd]
  · rw [show fracAndTz us = '.' :: (pad6 us ++ tzChars) from by simp [fracAndTz, h0]]
    dsimp only
    rw [if_pos rfl, read6_pad6 (show us < 1000000 by omega)]
    simp [parseTzEnd, tzChars]

theorem fromisoformat_isoformat {d : Datetime} (hv : d.valid) :
    Datetime.fromisoformat d.isoformat = some d := by
  unfold Datetime.fromisoformat Datetime.isoformat
  exact parseIsoChars_isoChars hv

end RDF

namespace RDF

/-- The values storable in a Python dict produced by the `to_dict`
methods: `None`, booleans, numbers (ints and floats, as rationals),
strings, lists, and nested dicts keyed by strings. -/
inductive Json where
  | null
  | bool (b : Bool)
  | num (q : ℚ)
  | str (s : String)
  | arr (xs : List Json)
  | obj (kvs : List (String × Json))

/-- `data[k]`: indexing a dict; a missing key (Python `KeyError`) is
`Option.none`. -/
def Json.lookup (j : Json) (k : String) : Option Json :=
  match j with
  | .obj kvs => (kvs.find? (fun kv => kv.1 = k)).map (·.2)
  | _ => Option.none

/-- `data.get(k, d)`. -/
def Json.getOr (j : Json) (k : String) (d : Json) : Json := (j.lookup k).getD d

/-- `data.get(k)` (default `None`). -/
def Json.getOpt (j : Json) (k : String) : Json := j.getOr k .null

def Json.asStr : Json → Option String
  | .str s => some s
  | _ => Option.none

def Json.asBool : Json → Option Bool
  | .bool b => some b
  | _ => Option.none

def Json.asInt : Json → Option Int
  | .num q => if q.den = 1 then some q.num else Option.none
  | _ => Option.none

def Json.asNat : Json → Option Nat
  | .num q => if q.den = 1 ∧ 0 ≤ q.num then some q.num.toNat else Option.none
  | _ => Option.none

def encOptNum : Option ℚ → Json
  | some q => .num q
  | Option.none => .null

def encOptNat : Option Nat → Json
  | some n => .num (n : ℚ)
  | Option.none => .null

def encOptBool : Option Bool → Json
  | some b => .bool b
  | Option.none => .null

def encOptStr : Option String → Json
  | some s => .str s
  | Option.none => .null

def decodeOptNum : Json → Option (Option ℚ)
  | .null => some Option.none
  | .num q => some (some q)
  | _ => Option.none

def decodeOptNat : Json → Option (Option Nat)
  | .null => some Option.none
  | .num q => if q.den = 1 ∧ 0 ≤ q.num then some (some q.num.toNat) else Option.none
  | _ => Option.none

def decodeOptBool : Json → Option (Option Bool)
  | .null => some Option.none
  | .bool b => some (some b)
  | _ => Option.none

def decodeOptStr : Json → Option (Option String)
  | .null => some Option.none
  | .str s => some (some s)
  | _ => Option.none

/-- Decoding each element of a serialized list in order, failing if any
element fails (models the Python comprehensions in the `from_dict`
methods). -/
def decodeList {α : Type} (dec : Json → Option α) : List Json → Option (List α)
  | [] => some []
  | j :: rest => do
      let a ← dec j
      let as ← decodeList dec rest
      pure (a :: as)

def decodeStrList (j : Json) : Option (List String) :=
  match j with
  | .arr xs => decodeList Json.asStr xs
  | _ => Option.none

/-- `ValueAnalysis.to_dict` (`rdf/observe/models.py` lines 66-77):
every field present by name; the tuples become lists. -/
def ValueAnalysis.toDict (v : ValueAnalysis) : Json :=
  .obj [("type_name", .str v.type_name),
        ("is_none", .bool v.is_none),
        ("numeric_value", encOptNum v.numeric_value),
        ("string_length", encOptNat v.string_length),
        ("string_patterns", .arr (v.string_patterns.map Json.str)),
        ("collection_length", encOptNat v.collection_length),
        ("collection_is_empty", encOptBool v.collection_is_empty),
        ("dict_keys", .arr (v.dict_keys.map Json.str))]

/-- `ValueAnalysis.from_dict` (`rdf/observe/models.py` lines 79-91):
`type_name` and `is_none` are required (`data[...]`), the rest read via
`.get` with the dataclass defaults. -/
def ValueAnalysis.fromDict (data : Json) : Option ValueAnalysis := do
  let type_name ← (data.lookup "type_name").bind Json.asStr
  let is_none ← (data.lookup "is_none").bind Json.asBool
  let numeric_value ← decodeOptNum (data.getOpt "numeric_value")
  let string_length ← decodeOptNat (data.getOpt "string_length")
  let string_patterns ← decodeStrList (data.getOr "string_patterns" (.arr []))
  let collection_length ← decodeOptNat (data.getOpt "collection_length")
  let collection_is_empty ← decodeOptBool (data.getOpt "collection_is_empty")
  let dict_keys ← decodeStrList (data.getOr "dict_keys" (.arr []))
  pure { type_name := type_name, is_none := is_none,
         numeric_value := numeric_value, string_length := string_length,
         string_patterns := string_patterns,
         collection_length := collection_length,
         collection_is_empty := collection_is_empty, dict_keys := dict_keys }

/-- One serialized `(name, analysis)` argument pair. -/
def decodeArgPair (j : Json) : Option (String × ValueAnalysis) :=
  match j with
  | .arr [a, b] => do
      let name ← Json.asStr a
      let va ← ValueAnalysis.fromDict b
      pure (name, va)
  | _ => Option.none

/-- `CallObservation.to_dict` (`rdf/observe/models.py` lines 116-130);
the timestamp serializes with `isoformat()`. -/
def CallObservation.toDict (o : CallObservation) : Json :=
  .obj [("function_name", .str o.function_name),
        ("module_name", .str o.module_name),
        ("qualname", .str o.qualname),
        ("file_path", .str o.file_path),
        ("line_number", .num (o.line_number : ℚ)),
        ("timestamp", .str o.timestamp.isoformat),
        ("arguments", .arr (o.arguments.map (fun nv => .arr [.str nv.1, nv.2.toDict]))),
        ("return_value", o.return_value.toDict),
        ("raised_exception", encOptStr o.raised_exception),
        ("caller", encOptStr o.caller),
        ("call_depth", .num (o.call_depth : ℚ))]

/-- `CallObservation.from_dict` (`rdf/observe/models.py` lines 132-149);
the timestamp parses with `datetime.fromisoformat`, `raised_exception`,
`caller` and `call_depth` use `.get` with defaults. -/
def CallObservation.fromDict (data : Json) : Option CallObservation := do
  let function_name ← (data.lookup "function_name").bind Json.asStr
  let module_name ← (data.lookup "module_name").bind Json.asStr
  let qualname ← (data.lookup "qualname").bind Json.asStr
  let file_path ← (data.lookup "file_path").bind Json.asStr
  let line_number ← (data.lookup "line_number").bind Json.asInt
  let timestamp ← (data.lookup "timestamp").bind
    (fun j => (Json.asStr j).bind Datetime.fromisoformat)
  let arguments ←
    match data.lookup "arguments" with
    | some (.arr xs) => decodeList decodeArgPair xs
    | _ => Option.none
  let return_value ← (data.lookup "return_value").bind ValueAnalysis.fromDict
  let raised_exception ← decodeOptStr (data.getOpt "raised_exception")
  let caller ← decodeOptStr (data.getOpt "caller")
  let call_depth ← Json.asNat (data.getOr "call_depth" (.num 0))
  pure { function_name := function_name, module_name := module_name,
         qualname := qualname, file_path := file_path,
         line_number := line_number, timestamp := timestamp,
         arguments := arguments, return_value := return_value,
         raised_exception := raised_exception, caller := caller,
         call_depth := call_depth }

/-- `list(s)` on a Python set of strings: its members in the model's
fixed iteration order. -/
def sortedList (s : Finset String) : List String := s.sort (· ≤ ·)

/-- `list(s)` on a Python set of `IOPattern` members. -/
def sortedIOList (s : Finset IOPattern) : List IOPattern := s.sort (· ≤ ·)

def decodeStrSet (j : Json) : Option (Finset String) :=
  match j with
  | .arr xs => (decodeList Json.asStr xs).map List.toFinset
  | _ => Option.none

def decodeIOPatternSet (j : Json) : Option (Finset IOPattern) :=
  match j with
  | .arr xs =>
      (decodeList (fun x => (Json.asStr x).bind IOPattern.ofValue) xs).map List.toFinset
  | _ => Option.none

/-- `FunctionProfile.to_dict` (`rdf/observe/models.py` lines 184-198):
sets serialize as lists of their elements (enum members by `.value`),
observations with their full data. -/
def FunctionProfile.toDict (p : FunctionProfile) : Json :=
  .obj [("qualname", .str p.qualname),
        ("module_name", .str p.module_name),
        ("file_path", .str p.file_path),
        ("line_number", .num (p.line_number : ℚ)),
        ("callers", .arr ((sortedList p.callers).map Json.str)),
        ("callees", .arr ((sortedList p.callees).map Json.str)),
        ("call_count", .num (p.call_count : ℚ)),
        ("max_call_depth", .num (p.max_call_depth : ℚ)),
        ("min_call_depth", .num (p.min_call_depth : ℚ)),
        ("io_patterns", .arr ((sortedIOList p.io_patterns).map (fun q => .str q.value))),
        ("observations", .arr (p.observations.map CallObservation.toDict))]

/-- `FunctionProfile.from_dict` (`rdf/observe/models.py` lines 200-218):
identity fields required, aggregates via `.get` with dataclass defaults
(999 for the min-depth sentinel), observations appended in order. -/
def FunctionProfile.fromDict (data : Json) : Option FunctionProfile := do
  let qualname ← (data.lookup "qualname").bind Json.asStr
  let module_name ← (data.lookup "module_name").bind Json.asStr
  let file_path ← (data.lookup "file_path").bind Json.asStr
  let line_number ← (data.lookup "line_number").bind Json.asInt
  let callers ← decodeStrSet (data.getOr "callers" (.arr []))
  let callees ← decodeStrSet (data.getOr "callees" (.arr []))
  let call_count ← Json.asNat (data.getOr "call_count" (.num 0))
  let max_call_depth ← Json.asNat (data.getOr "max_call_depth" (.num 0))
  let min_call_depth ← Json.asNat (data.getOr "min_call_depth" (.num 999))
  let io_patterns ← decodeIOPatternSet (data.getOr "io_patterns" (.arr []))
  let observations ←
    match data.getOr "observations" (.arr []) with
    | .arr xs => decodeList CallObservation.fromDict xs
    | _ => Option.none
  pure { qualname := qualname, module_name := module_name,
         file_path := file_path, line_number := line_number,
         callers := callers, callees := callees, call_count := call_count,
         max_call_depth := max_call_depth, min_call_depth := min_call_depth,
         io_patterns := io_patterns, observations := observations }

end RDF

namespace RDF

theorem decodeOptNum_enc (o : Option ℚ) : decodeOptNum (encOptNum o) = some o := by
  cases o <;> rfl

theorem decodeOptNat_enc (o : Option Nat) : decodeOptNat (encOptNat o) = some o := by
  cases o with
  | none => rfl
  | some n => simp [decodeOptNat, encOptNat]

theorem decodeOptBool_enc (o : Option Bool) : decodeOptBool (encOptBool o) = some o := by
  cases o <;> rfl

theorem decodeOptStr_enc (o : Option String) : decodeOptStr (encOptStr o) = some o := by
  cases o <;> rfl

theorem asInt_intCast (n : Int) : Json.asInt (.num (n : ℚ)) = some n := by
  simp [Json.asInt]

theorem asNat_natCast (n : Nat) : Json.asNat (.num (n : ℚ)) = some n := by
  simp [Json.asNat]

theorem decodeList_map {α : Type} (enc : α → Json) (dec : Json → Option α) :
    ∀ (l : List α), (∀ a ∈ l, dec (enc a) = some a) →
      decodeList dec (l.map enc) = some l := by
  intro l
  induction l with
  | nil => intro _; rfl
  | cons x xs ih =>
      intro h
      simp only [List.map_cons, decodeList, h x (List.mem_cons_self x xs),
        ih (fun a ha => h a (List.mem_cons_of_mem x ha)), Option.bind_some]
      rfl

theorem decodeStrList_enc (l : List String) :
    decodeStrList (.arr (l.map Json.str)) = some l := by
  unfold decodeStrList
  exact decodeList_map Json.str Json.asStr l (fun a _ => rfl)

theorem decodeStrSet_enc (s : Finset String) :
    decodeStrSet (.arr ((sortedList s).map Json.str)) = some s := by
  unfold decodeStrSet
  dsimp only
  rw [decodeList_map Json.str Json.asStr _ (fun a _ => rfl)]
  simp [sortedList, Finset.sort_toFinset]

theorem ofValue_value (p : IOPattern) : IOPattern.ofValue p.value = some p := by
  cases p <;> rfl

theorem decodeIOPatternSet_enc (s : Finset IOPattern) :
    decodeIOPatternSet (.arr ((sortedIOList s).map (fun q => .str q.value))) = some s := by
  unfold decodeIOPatternSet
  dsimp only
  rw [decodeList_map (fun q => Json.str q.value)
    (fun x => (Json.asStr x).bind IOPattern.ofValue) _
    (fun a _ => by simp [Json.asStr, ofValue_value])]
  simp [sortedIOList, Finset.sort_toFinset]

/-- Round trip for `ValueAnalysis`. -/
theorem valueAnalysis_roundtrip (v : ValueAnalysis) :
    ValueAnalysis.fromDict v.toDict = some v := by
  obtain ⟨tn, isn, nv, sl, sp, cl, ce, dk⟩ := v
  simp [ValueAnalysis.toDict, ValueAnalysis.fromDict, Json.lookup, Json.getOpt,
    Json.getOr, Json.asStr, Json.asBool, decodeOptNum_enc, decodeOptNat_enc,
    decodeOptBool_enc, decodeStrList_enc]

theorem decodeArgPair_enc (nv : String × ValueAnalysis) :
    decodeArgPair (.arr [.str nv.1, nv.2.toDict]) = some nv := by
  obtain ⟨n, va⟩ := nv
  simp [decodeArgPair, Json.asStr, valueAnalysis_roundtrip]

/-- Round trip for `CallObservation` (the timestamp being a well-formed
datetime). -/
theorem callObservation_roundtrip (o : CallObservation) (hv : o.timestamp.valid) :
    CallObservation.fromDict o.toDict = some o := by
  obtain ⟨fn, mn, qn, fp, ln, ts, args, rv, re, ca, cd⟩ := o
  simp only at hv
  simp [CallObservation.toDict, CallObservation.fromDict, Json.lookup,
    Json.getOpt, Json.getOr, Json.asStr, asInt_intCast, asNat_natCast,
    fromisoformat_isoformat hv, valueAnalysis_roundtrip,
    decodeOptStr_enc,
    decodeList_map (fun nv => Json.arr [.str nv.1, nv.2.toDict]) decodeArgPair
      args (fun a _ => decodeArgPair_enc a)]

/-- Round trip for `FunctionProfile` (all observation timestamps being
well-formed datetimes). -/
theorem functionProfile_roundtrip (p : FunctionProfile)
    (hv : ∀ o ∈ p.observations, o.timestamp.valid) :
    FunctionProfile.fromDict p.toDict = some p := by
  obtain ⟨qn, mn, fp, ln, crs, ces, cc, mx, mn2, io, obs⟩ := p
  simp only at hv
  simp [FunctionProfile.toDict, FunctionProfile.fromDict, Json.lookup,
    Json.getOpt, Json.getOr, Json.asStr, asInt_intCast, asNat_natCast,
    decodeStrSet_enc, decodeIOPatternSet_enc,
    decodeList_map CallObservation.toDict CallObservation.fromDict obs
      (fun a ha => callObservation_roundtrip a (hv a ha))]

/-- C7: serializing then deserializing a `ValueAnalysis`, a
`CallObservation`, or a `FunctionProfile` yields a value field-for-field
equal to the original — including set members, the ordered
`(parameter, analysis)` pair list, enum tags, and the UTC timestamps
(which must be well-formed datetimes). -/
theorem serialization_roundtrip :
    (∀ v : ValueAnalysis, ValueAnalysis.fromDict v.toDict = some v) ∧
    (∀ o : CallObservation, o.timestamp.valid →
        CallObservation.fromDict o.toDict = some o) ∧
    (∀ p : FunctionProfile, (∀ o ∈ p.observations, o.timestamp.valid) →
        FunctionProfile.fromDict p.toDict = some p) :=
  ⟨valueAnalysis_roundtrip, callObservation_roundtrip, functionProfile_roundtrip⟩

/-- Witness for C7 at concrete values. -/
theorem serialization_roundtrip_witness :
    ValueAnalysis.fromDict va1.toDict = some va1 ∧
    (obsNamed "x").timestamp.valid ∧
    CallObservation.fromDict (obsNamed "x").toDict = some (obsNamed "x") ∧
    (∀ o ∈ Q5.observations, o.timestamp.valid) ∧
    FunctionProfile.fromDict Q5.toDict = some Q5 :=
  ⟨serialization_roundtrip.1 va1, by decide,
   serialization_roundtrip.2.1 (obsNamed "x") (by decide), by decide,
   serialization_roundtrip.2.2 Q5 (by decide)⟩

end RDF

namespace RDF

/-! ### The profile store and its snapshot (C4)

`_profiles` in `rdf/observe/decorator.py` maps qualified names to
`FunctionProfile` *objects*; the wrapper mutates those objects in place.
To reason about sharing, the store is modelled with an explicit heap:
the table maps qualified names to heap addresses, and an in-place
mutation rewrites the heap slot while every alias keeps pointing at it. -/

/-- Placeholder profile used as the out-of-range default of heap reads
(never reached for well-formed stores). -/
def dummyProfile : FunctionProfile :=
  { qualname := "", module_name := "", file_path := "", line_number := 0 }

/-- The global profile store: `_profiles` as a table of references into
a heap of profile objects. -/
structure ProfileStore where
  heap : List FunctionProfile
  table : List (String × Nat)

/-- `get_observations` (`rdf/observe/decorator.py` lines 221-224):
`dict(_profiles)` — a copy of the *table* only; the referenced profile
objects are the same. -/
def getObservations (s : ProfileStore) : List (String × Nat) := s.table

/-- Reading the profiles a snapshot refers to, through the current heap. -/
def viewSnapshot (snap : List (String × Nat)) (heap : List FunctionProfile) :
    List (String × FunctionProfile) :=
  snap.map (fun qa => (qa.1, heap.getD qa.2 dummyProfile))

/-- What the spec's words describe: a deep copy, i.e. the snapshot's
profile contents fixed at snapshot time.  Modelled from the spec:
`snapshot() -> map<qualifiedName, FunctionProfile>`, a deep copy. -/
def deepSnapshot (s : ProfileStore) : List (String × FunctionProfile) :=
  viewSnapshot s.table s.heap

/-- An in-place mutation of the profile object registered under `q`
(e.g. the wrapper's observation append / call-count update,
`rdf/observe/decorator.py` lines 111-116 and 159-160). -/
def mutateProfile (s : ProfileStore) (q : String)
    (f : FunctionProfile → FunctionProfile) : ProfileStore :=
  match s.table.find? (fun kv => kv.1 = q) with
  | some kv => { s with heap := s.heap.set kv.2 (f (s.heap.getD kv.2 dummyProfile)) }
  | Option.none => s

/-- `clear_observations` (`rdf/observe/decorator.py` lines 227-230):
`_profiles.clear()` empties the table; the objects live on through any
outstanding references. -/
def clearStore (s : ProfileStore) : ProfileStore := { s with table := [] }

/-- Appending one observation and bumping the call count, as the
wrapper does in place. -/
def pushObservation (obs : CallObservation) (p : FunctionProfile) : FunctionProfile :=
  { p with call_count := p.call_count + 1,
           observations := p.observations ++ [obs] }

/-- A concrete store: one profile object at address 0, registered under
`m.f`. -/
def S0 : ProfileStore :=
  { heap := [initProfile ⟨"f", "m", "m.f", "ex.py", 10⟩],
    table := [("m.f", 0)] }

/-- C4 counterexample: the snapshot returned by `get_observations` is
not a deep copy — after the store appends an observation to `m.f`'s
profile, the contents seen through the previously returned snapshot
have changed. -/
theorem get_observations_not_deep_copy :
    viewSnapshot (getObservations S0)
        (mutateProfile S0 "m.f" (pushObservation (obsNamed "x"))).heap
      ≠ viewSnapshot (getObservations S0) S0.heap := by
  decide

/-- C4 (amended): `get_observations` returns a *shallow* copy: the
mapping itself is copied, so clearing the store afterwards empties the
store but leaves the snapshot's entries in place; the profile objects
are shared, so an in-place profile mutation made through the store after
the snapshot is visible through the snapshot (every snapshot entry
aliasing the mutated address shows the mutated profile). -/
theorem get_observations_shallow_copy (s : ProfileStore) (q : String)
    (f : FunctionProfile → FunctionProfile) (kv : String × Nat)
    (hfind : s.table.find? (fun kv => kv.1 = q) = some kv)
    (hlt : kv.2 < s.heap.length) :
    viewSnapshot (getObservations s) (mutateProfile s q f).heap
      = (getObservations s).map
          (fun qa => (qa.1,
            if qa.2 = kv.2 then f (s.heap.getD kv.2 dummyProfile)
            else s.heap.getD qa.2 dummyProfile)) ∧
    getObservations (clearStore s) = [] ∧
    viewSnapshot (getObservations s) (clearStore s).heap
      = viewSnapshot (getObservations s) s.heap := by
  refine ⟨?_, rfl, rfl⟩
  unfold mutateProfile
  rw [hfind]
  unfold viewSnapshot getObservations
  apply List.map_congr_left
  intro qa _
  by_cases hq : qa.2 = kv.2
  · rw [if_pos hq, hq]
    congr 1
    rw [List.getD_eq_getElem?_getD, List.getElem?_set_self (by omega),
      Option.getD_some]
  · rw [if_neg hq]
    congr 1
    rw [List.getD_eq_getElem?_getD, List.getElem?_set_ne (by omega),
      ← List.getD_eq_getElem?_getD]

/-- Witness for the amended C4 theorem on the concrete store `S0`. -/
theorem get_observations_shallow_copy_witness :
    S0.table.find? (fun kv => kv.1 = "m.f") = some ("m.f", 0) ∧
    0 < S0.heap.length ∧
    (viewSnapshot (getObservations S0)
        (mutateProfile S0 "m.f" (pushObservation (obsNamed "x"))).heap
      = (getObservations S0).map
          (fun qa => (qa.1,
            if qa.2 = 0 then pushObservation (obsNamed "x") (S0.heap.getD 0 dummyProfile)
            else S0.heap.getD qa.2 dummyProfile)) ∧
    getObservations (clearStore S0) = [] ∧
    viewSnapshot (getObservations S0) (clearStore S0).heap
      = viewSnapshot (getObservations S0) S0.heap) :=
  ⟨by decide, by decide,
    get_observations_shallow_copy S0 "m.f" (pushObservation (obsNamed "x"))
      ("m.f", 0) (by decide) (by decide)⟩

end RDF

namespace RDF

/-! ### The Safe Source Patcher (`rdf/observe/writer.py`) -/

/-- A statement of a function body as the patcher sees it: its 1-based
line span and, when it is a string-literal expression (a docstring
statement, `ast.Expr` of `ast.Str`/`ast.Constant`), the string's text. -/
structure Stmt where
  lineno : Nat
  end_lineno : Option Nat
  doc_text : Option String
  deriving DecidableEq

/-- An `ast.FunctionDef` or `ast.AsyncFunctionDef` node of the parsed
module, in `ast.walk` order. -/
structure FuncNode where
  name : String
  lineno : Nat
  is_async : Bool
  body : List Stmt
  deriving DecidableEq

/-- The slice of `GeneratedDocstring` the patcher reads: target identity
and location, and the rendered text (`doc.render()` is the renderer's
output, carried as a field). -/
structure DocEntry where
  qualname : String
  line_number : Nat
  rendered : String
  deriving DecidableEq

/-- `_find_function_node` (`rdf/observe/writer.py` lines 137-145): the
first walked `FunctionDef`/`AsyncFunctionDef` whose `lineno` equals the
requested line.  The name is not consulted. -/
def findFunctionNode (tree : List FuncNode) (line_number : Nat) : Option FuncNode :=
  tree.find? (fun node => node.lineno = line_number)

/-- `ast.get_docstring(func_node)`: the text of the leading
string-literal statement of the body, if any. -/
def getDocstring (n : FuncNode) : Option String :=
  match n.body with
  | st :: _ => st.doc_text
  | [] => Option.none

/-- Length of the whitespace prefix stripped by `lstrip()`. -/
def lstripLen (s : String) : Nat := s.length - (s.data.dropWhile Char.isWhitespace).length

/-- `line.strip()` is falsy iff the line is all whitespace. -/
def isBlank (line : String) : Bool := line.data.all Char.isWhitespace

/-- `str.splitlines()` on the piece between newline separators. -/
def splitOnNewline : List Char → List (List Char)
  | [] => [[]]
  | c :: rest =>
      let r := splitOnNewline rest
      if c = '\n' then [] :: r
      else
        match r with
        | h :: t => (c :: h) :: t
        | [] => [[c]]

/-- `str.splitlines()` (no trailing empty piece). -/
def splitLinesPy (s : String) : List String :=
  let ps := splitOnNewline s.data
  let ps := if ps.getLast? = some [] then ps.dropLast else ps
  ps.map String.mk

/-- The formatted docstring block (`rdf/observe/writer.py` lines
96-104), as lines without their trailing newlines: a quote line, the
indented content lines (blank lines stay empty), a closing quote line. -/
def formatDocstring (indent_str : String) (content : String) : List String :=
  (indent_str ++ "\"\"\"") ::
    ((splitLinesPy content).map
      (fun line => if isBlank line then "" else indent_str ++ line)
      ++ [indent_str ++ "\"\"\""])

/-- The fate of one docstring entry inside `_apply_to_file`:
applied, skipped because no function node starts at the recorded line
(reported with "Could not find function at line ..."), or silently
skipped because the definition line is beyond the file. -/
inductive PatchStatus where
  | applied
  | functionNotFound
  | defLineOutOfRange
  deriving DecidableEq

/-- The per-docstring body of `_apply_to_file`'s loop
(`rdf/observe/writer.py` lines 79-130): locate the function node by
line, bail out (continue) when absent or when the definition line is
out of range, otherwise compute the indentation and either replace the
existing docstring's exact span or insert the rendered block as the
first body statement (after the `def` line for an empty body). -/
def applyDoc (tree : List FuncNode) (doc : DocEntry) (lines : List String) :
    List String × PatchStatus :=
  match findFunctionNode tree doc.line_number with
  | Option.none => (lines, .functionNotFound)
  | some func_node =>
      let def_line_idx := func_node.lineno - 1
      if lines.length ≤ def_line_idx then (lines, .defLineOutOfRange)
      else
        let def_line := lines.getD def_line_idx ""
        let base_indent := lstripLen def_line
        let body_indent := base_indent + 4
        let indent_str := String.mk (List.replicate body_indent ' ')
        let formatted_lines := formatDocstring indent_str doc.rendered
        let newLines :=
          match getDocstring func_node, func_node.body with
          | some text, docstring_node :: _ =>
              if text ≠ "" then
                let start_line := docstring_node.lineno - 1
                let end_line := docstring_node.end_lineno.getD (start_line + 1)
                lines.take start_line ++ formatted_lines ++ lines.drop end_line
              else
                let first_body_line := docstring_node.lineno - 1
                lines.take first_body_line ++ formatted_lines ++ lines.drop first_body_line
          | _, first_stmt :: _ =>
              let first_body_line := first_stmt.lineno - 1
              lines.take first_body_line ++ formatted_lines ++ lines.drop first_body_line
          | _, [] =>
              lines.take (def_line_idx + 1)
                ++ [String.intercalate "\n" formatted_lines]
                ++ lines.drop (def_line_idx + 1)
        (newLines, .applied)

/-- Stable insertion into a list already sorted by descending
`line_number`. -/
def insertDescending (d : DocEntry) : List DocEntry → List DocEntry
  | [] => [d]
  | x :: xs =>
      if x.line_number ≤ d.line_number then d :: x :: xs
      else x :: insertDescending d xs

/-- `docstrings.sort(key=lambda d: d.line_number, reverse=True)`
(`rdf/observe/writer.py` line 77): stable descending sort. -/
def sortByLineDesc : List DocEntry → List DocEntry
  | [] => []
  | d :: rest => insertDescending d (sortByLineDesc rest)

/-- The edit loop over the sorted entries, threading the line buffer and
collecting each entry's fate. -/
def applyDocsLoop (tree : List FuncNode) :
    List DocEntry → List String → List String × List (DocEntry × PatchStatus)
  | [], lines => (lines, [])
  | d :: rest, lines =>
      let r1 := applyDoc tree d lines
      let r2 := applyDocsLoop tree rest r1.1
      (r2.1, (d, r1.2) :: r2.2)

/-- `_apply_to_file` after backup and parse (`rdf/observe/writer.py`
lines 75-133): sort descending by line, apply each entry, write the
joined lines once. -/
def applyToFile (lines : List String) (tree : List FuncNode)
    (docs : List DocEntry) : List String × List (DocEntry × PatchStatus) :=
  applyDocsLoop tree (sortByLineDesc docs) lines

end RDF

namespace RDF

theorem applyDoc_status (tree : List FuncNode) (d : DocEntry) (lines : List String) :
    ((applyDoc tree d lines).2 = .functionNotFound ↔
      findFunctionNode tree d.line_number = Option.none) ∧
    ((applyDoc tree d lines).2 = .applied →
      ∃ node, findFunctionNode tree d.line_number = some node ∧
        node.lineno = d.line_number) := by
  unfold applyDoc
  cases hfind : findFunctionNode tree d.line_number with
  | none => simp
  | some node =>
      have hline : node.lineno = d.line_number := by
        have := List.find?_some hfind
        simpa using this
      dsimp only
      split
      · simp
      · simp only []
        constructor
        · constructor
          · intro h; cases h
          · intro h; cases h
        · intro _
          exact ⟨node, rfl, hline⟩

theorem applyDocsLoop_spec (tree : List FuncNode) :
    ∀ (ds : List DocEntry) (lines : List String),
      ((applyDocsLoop tree ds lines).2.map Prod.fst = ds) ∧
      (∀ e ∈ (applyDocsLoop tree ds lines).2,
        (e.2 = .functionNotFound ↔
          findFunctionNode tree e.1.line_number = Option.none) ∧
        (e.2 = .applied →
          ∃ node, findFunctionNode tree e.1.line_number = some node ∧
            node.lineno = e.1.line_number)) := by
  intro ds
  induction ds with
  | nil => intro lines; exact ⟨rfl, by intro e he; cases he⟩
  | cons d rest ih =>
      intro lines
      unfold applyDocsLoop
      constructor
      · simp [(ih (applyDoc tree d lines).1).1]
      · intro e he
        simp only [List.mem_cons] at he
        rcases he with he | he
        · subst he
          exact applyDoc_status tree d lines
        · exact (ih (applyDoc tree d lines).1).2 e he

/-- C1 (amended): the staleness verification of the patcher checks only
that a (possibly async) function definition node starts at the recorded
line — the function's name is never compared with the expected
identifier.  Every entry of the batch is processed exactly once (in
descending line order); an entry whose line no longer starts a function
definition is skipped and reported while the others proceed, and an
applied entry did have a function definition starting at its recorded
line. -/
theorem applyToFile_verifies_line_only (lines : List String)
    (tree : List FuncNode) (docs : List DocEntry) :
    ((applyToFile lines tree docs).2.map Prod.fst = sortByLineDesc docs) ∧
    (∀ e ∈ (applyToFile lines tree docs).2,
      (e.2 = .functionNotFound ↔
        findFunctionNode tree e.1.line_number = Option.none) ∧
      (e.2 = .applied →
        ∃ node, findFunctionNode tree e.1.line_number = some node ∧
          node.lineno = e.1.line_number)) :=
  applyDocsLoop_spec tree (sortByLineDesc docs) lines

/-- A body statement that is not a docstring. -/
def cexStmt : Stmt := ⟨4, some 4, Option.none⟩

/-- A module with one function `bar` defined at line 3. -/
def cexTree : List FuncNode := [⟨"bar", 3, false, [cexStmt]⟩]

/-- The file's lines. -/
def cexLines : List String := ["import os", "", "def bar():", "    pass"]

/-- A docstring batch entry that expects function `m.foo` at line 3 —
line 3 defines `bar`, not `foo`. -/
def cexDoc : DocEntry := ⟨"m.foo", 3, "Position"⟩

/-- C1 counterexample: the entry targeting line 3 expects `m.foo`, the
function actually defined there is `bar`, and the patcher applies the
edit anyway — no name verification happens. -/
theorem patcher_applies_despite_name_mismatch :
    (findFunctionNode cexTree cexDoc.line_number).map FuncNode.name = some "bar" ∧
    cexDoc.qualname = "m.foo" ∧
    (applyToFile cexLines cexTree [cexDoc]).2 = [(cexDoc, .applied)] ∧
    (applyToFile cexLines cexTree [cexDoc]).1 ≠ cexLines := by
  refine ⟨by decide, by decide, by decide, by decide⟩

/-- Witness for the amended C1 theorem at a concrete batch. -/
theorem applyToFile_verifies_line_only_witness :
    ((cexDoc, PatchStatus.applied) ∈ (applyToFile cexLines cexTree [cexDoc]).2) ∧
    ((PatchStatus.applied = PatchStatus.functionNotFound ↔
        findFunctionNode cexTree cexDoc.line_number = Option.none) ∧
      (PatchStatus.applied = PatchStatus.applied →
        ∃ node, findFunctionNode cexTree cexDoc.line_number = some node ∧
          node.lineno = cexDoc.line_number)) :=
  ⟨by decide,
    (applyToFile_verifies_line_only cexLines cexTree [cexDoc]).2
      (cexDoc, PatchStatus.applied) (by decide)⟩

/-! ### Backups (`rdf/observe/writer.py` lines 54-58, claim C2) -/

/-- The filesystem as a write-shadowing association of paths to text;
a later write to a path shadows the earlier content, with no error. -/
def FileSystem := List (String × String)

def fsRead (fs : FileSystem) (p : String) : Option String :=
  (fs.find? (fun e => e.1 = p)).map (·.2)

/-- Writing (or `shutil.copy` arriving at) a path: replaces silently. -/
def fsWrite (fs : FileSystem) (p : String) (content : String) : FileSystem :=
  (p, content) :: fs

/-- `shutil.copy(path, backup_path)`: reads the source and writes the
destination, overwriting silently if the destination exists. -/
def shutilCopy (fs : FileSystem) (src dst : String) : FileSystem :=
  match fsRead fs src with
  | some c => fsWrite fs dst c
  | Option.none => fs

/-- A `pathlib.Path` with its final suffix split off, enough for
`with_suffix`. -/
structure PyPath where
  stem : String
  suffix : String
  deriving DecidableEq

def PyPath.render (p : PyPath) : String := p.stem ++ p.suffix

/-- `Path.with_suffix(s)`: replaces the final suffix. -/
def PyPath.withSuffix (p : PyPath) (s : String) : PyPath := ⟨p.stem, s⟩

/-- `datetime.now().strftime("%Y%m%d_%H%M%S")` — one-second
granularity, the microsecond field never appears. -/
def timestampStr (d : Datetime) : String :=
  String.mk (pad4 d.year ++ pad2 d.month ++ pad2 d.day ++
    '_' :: (pad2 d.hour ++ pad2 d.minute ++ pad2 d.second))

/-- `path.with_suffix(f".py.bak.{timestamp}")`
(`rdf/observe/writer.py` line 56). -/
def backupPath (p : PyPath) (now : Datetime) : PyPath :=
  p.withSuffix (".py.bak." ++ timestampStr now)

/-- The backup step of `_apply_to_file`
(`rdf/observe/writer.py` lines 55-57). -/
def createBackup (fs : FileSystem) (p : PyPath) (now : Datetime) : FileSystem :=
  shutilCopy fs p.render (backupPath p now).render

/-- Two instants within the same wall-clock second (they may differ in
the microsecond field). -/
def sameSecond (t1 t2 : Datetime) : Prop :=
  t1.year = t2.year ∧ t1.month = t2.month ∧ t1.day = t2.day ∧
  t1.hour = t2.hour ∧ t1.minute = t2.minute ∧ t1.second = t2.second

instance (t1 t2 : Datetime) : Decidable (sameSecond t1 t2) := by
  unfold sameSecond; infer_instance

def bkPath : PyPath := ⟨"doc", ".py"⟩

def tA : Datetime := ⟨2025, 3, 4, 12, 30, 45, 111111⟩

def tB : Datetime := ⟨2025, 3, 4, 12, 30, 45, 222222⟩

def fsA : FileSystem := [("doc.py", "v1")]

def fsB : FileSystem := createBackup fsA bkPath tA

def fsC : FileSystem := fsWrite fsB "doc.py" "v2"

def fsD : FileSystem := createBackup fsC bkPath tB

/-- C2 counterexample: two backups of the same file at distinct instants
within one second use the identical backup path; the second silently
replaces the first backup's content (`v1` is lost, the path now reads
`v2`), and no failure is signalled. -/
theorem backup_silent_overwrite_in_same_second :
    tA ≠ tB ∧
    backupPath bkPath tA = backupPath bkPath tB ∧
    fsRead fsB (backupPath bkPath tA).render = some "v1" ∧
    fsRead fsD (backupPath bkPath tA).render = some "v2" := by
  refine ⟨by decide, by decide, by decide, by decide⟩

/-- C2 (amended): backup names carry a timestamp of one-second
granularity, so a later backup of the same file within the same second
targets the identical backup path and silently replaces whatever that
path held — the copy reports no error and the backup slot afterwards
holds the file's current content. -/
theorem backup_same_second_overwrites (fs : FileSystem) (p : PyPath)
    (t1 t2 : Datetime) (hsec : sameSecond t1 t2) (c : String)
    (hread : fsRead fs p.render = some c) :
    backupPath p t1 = backupPath p t2 ∧
    fsRead (createBackup fs p t2) (backupPath p t1).render = some c := by
  obtain ⟨h1, h2, h3, h4, h5, h6⟩ := hsec
  have hts : timestampStr t1 = timestampStr t2 := by
    unfold timestampStr
    rw [h1, h2, h3, h4, h5, h6]
  have hp : backupPath p t1 = backupPath p t2 := by
    unfold backupPath PyPath.withSuffix
    rw [hts]
  refine ⟨hp, ?_⟩
  rw [hp]
  unfold createBackup shutilCopy
  rw [hread]
  unfold fsWrite fsRead
  simp

/-- Witness for the amended C2 theorem at the concrete scenario. -/
theorem backup_same_second_overwrites_witness :
    sameSecond tA tB ∧
    fsRead fsA bkPath.render = some "v1" ∧
    (backupPath bkPath tA = backupPath bkPath tB ∧
      fsRead (createBackup fsA bkPath tB) (backupPath bkPath tA).render
        = some "v1") :=
  ⟨by decide, by decide,
    backup_same_second_overwrites fsA bkPath tA tB (by decide) "v1" (by decide)⟩

end RDF
